import Mathlib

/-!
Shallow embedding of the Calgary water-main map application: the rule-based
risk scoring engine (src/risk_consequence.js), the per-feature derived
attributes, LOD/filter pipeline, slippy-tile computation and shareable-URL
codec (src/map.js).  JS numbers are modelled as rationals, nullable values
as `Option`, and JS strings as Lean strings with character-level helpers
that mirror the JS string primitives actually used by the code.
-/

namespace CalgaryWater

/-- JS `Math.round`: round half toward positive infinity, `floor(q + 1/2)`. -/
def jsRound (q : ℚ) : ℤ := ⌊q + 1/2⌋

/-- The `clamp(n, lo, hi)` helper (`Math.max(lo, Math.min(hi, n))`) at integer type. -/
def clampZ (n lo hi : ℤ) : ℤ := max lo (min hi n)

/-- Whitespace recognizer backing the model of JS `String.prototype.trim`. -/
def isWsChar (c : Char) : Bool := c = ' ' || c = '\t' || c = '\n' || c = '\r'

/-- Model of JS `trim`: drop whitespace characters from both ends. -/
def trimChars (cs : List Char) : List Char :=
  ((cs.dropWhile isWsChar).reverse.dropWhile isWsChar).reverse

/-- String-level wrapper for `trimChars`. -/
def trimString (s : String) : String := String.mk (trimChars s.toList)

/-- Model of JS `toUpperCase` (character-wise ASCII upcasing, which is all the
material/status codes in this dataset exercise). -/
def toUpperString (s : String) : String := String.mk (s.toList.map Char.toUpper)

/-- Model of JS `toLowerCase`, used by the URL-state reader for `ov`. -/
def toLowerString (s : String) : String := String.mk (s.toList.map Char.toLower)

/-- Does the list start with the given pattern of characters? -/
def charsStartWith : List Char → List Char → Bool
  | [], _ => true
  | _ :: _, [] => false
  | p :: ps, c :: cs => p = c && charsStartWith ps cs

/-- Does the pattern occur as a contiguous run anywhere in the list? -/
def charsContain (pat : List Char) : List Char → Bool
  | [] => pat.isEmpty
  | c :: cs => charsStartWith pat (c :: cs) || charsContain pat cs

/-- Model of JS `String.prototype.includes`. -/
def strIncludes (s pat : String) : Bool := charsContain pat.toList s.toList

/-- Decimal digit to its character (codepoint 48 + digit). -/
def digitChar (d : ℕ) : Char := Char.ofNat (48 + d % 10)

/-- Character to decimal digit, `none` when not a digit. -/
def charDigit? (c : Char) : Option ℕ :=
  if '0' ≤ c ∧ c ≤ '9' then some (c.toNat - 48) else none

/-- Most-significant-first base-10 digit list of a natural (empty for 0). -/
def natDigitsMSB (n : ℕ) : List ℕ := (Nat.digits 10 n).reverse

/-- Decimal rendering of a natural number (at least one character). -/
def renderNat (n : ℕ) : List Char :=
  if n = 0 then ['0'] else (natDigitsMSB n).map digitChar

/-- Decimal rendering of a natural number left-padded with zeros to `d` characters. -/
def renderNatPad (d n : ℕ) : List Char :=
  let ds := (natDigitsMSB n).map digitChar
  List.replicate (d - ds.length) '0' ++ ds

/-- Fraction-part scanner of the decimal-string parser: accumulates digit
value and digit count after the decimal point. -/
def parseFracAux : List Char → ℕ → ℕ → Option (ℕ × ℕ)
  | [], acc, len => some (acc, len)
  | c :: t, acc, len =>
    match charDigit? c with
    | some dv => parseFracAux t (10 * acc + dv) (len + 1)
    | none => none

/-- Integer-part scanner of the decimal-string parser; `seen` records whether
any digit has been consumed yet. -/
def parseIntAux : List Char → ℕ → Bool → Option ℚ
  | [], acc, seen => if seen then some (acc : ℚ) else none
  | c :: t, acc, seen =>
    if c = '.' then
      match parseFracAux t 0 0 with
      | some (fv, fl) =>
        if seen || fl > 0 then some ((acc : ℚ) + (fv : ℚ) / 10 ^ fl) else none
      | none => none
    else
      match charDigit? c with
      | some dv => parseIntAux t (10 * acc + dv) true
      | none => none

/-- Model of JS `Number()` on the plain decimal strings this code base reads
and writes: optional sign, digits with at most one decimal point; anything
else is NaN (`none`); the empty string is 0. -/
def jsNumber (s : String) : Option ℚ :=
  match s.toList with
  | [] => some 0
  | c :: t =>
    if c = '-' then (parseIntAux t 0 false).map (fun v => -v)
    else if c = '+' then parseIntAux t 0 false
    else parseIntAux (c :: t) 0 false

/-- Nonnegative-magnitude part of JS `Number.prototype.toFixed(d)`: the value
times `10^d` is rounded to the nearest integer (ties away from zero, which for
the nonnegative magnitude is ties up), then printed with exactly `d` digits
after the point. -/
def jsToFixedNN (q : ℚ) (d : ℕ) : String :=
  let n : ℕ := (⌊q * 10 ^ d + 1/2⌋).toNat
  let ip := n / 10 ^ d
  let fp := n % 10 ^ d
  if d = 0 then String.mk (renderNat ip)
  else String.mk (renderNat ip ++ '.' :: renderNatPad d fp)

/-- Model of JS `Number.prototype.toFixed(d)`: the sign is split off first
(as in the ECMAScript algorithm), then the magnitude is rendered. -/
def jsToFixed (q : ℚ) (d : ℕ) : String :=
  if q < 0 then "-" ++ jsToFixedNN (-q) d else jsToFixedNN q d

/-- The numeric value that `toFixed(d)` denotes: `q` rounded to `d` decimal
places, ties away from zero. -/
def fixedRound (q : ℚ) (d : ℕ) : ℚ :=
  if q < 0 then -(((⌊(-q) * 10 ^ d + 1/2⌋).toNat : ℚ) / 10 ^ d)
  else ((⌊q * 10 ^ d + 1/2⌋).toNat : ℚ) / 10 ^ d

/-- Model of JS `split(",")` on a character list. -/
def splitOnComma : List Char → List (List Char)
  | [] => [[]]
  | c :: t =>
    if c = ',' then [] :: splitOnComma t
    else
      match splitOnComma t with
      | [] => [[c]]
      | h :: r => (c :: h) :: r

/-- Model of JS `Array.prototype.join(",")` on character lists. -/
def joinComma : List (List Char) → List Char
  | [] => []
  | [p] => p
  | p :: r => p ++ ',' :: joinComma r

/-- String-level `split(",")`. -/
def jsSplitCommaStr (s : String) : List String := (splitOnComma s.toList).map String.mk

/-- String-level `join(",")`. -/
def jsJoinCommaStr (ls : List String) : String := String.mk (joinComma (ls.map String.toList))

namespace MapJs

/-- The fixed reference year `CURRENT_YEAR = 2025` of src/map.js. -/
def CURRENT_YEAR : ℤ := 2025

/-- The `MATERIAL_ORDER` palette key list. -/
def MATERIAL_ORDER : List String :=
  ["PVC", "CI", "YDI", "PDI", "ST", "PVCG", "CON", "DI", "AC", "PE", "CU"]

/-- The `normalizeMaterial` of src/map.js: trim, uppercase, empty becomes
the literal `Unknown`. -/
def normalizeMaterial (raw : Option String) : String :=
  let s := toUpperString (trimString (raw.getD ""))
  if s = "" then "Unknown" else s

/-- The `parseDiameterMm` of src/map.js: `Number` of the trimmed text,
`null` unless finite and positive. -/
def parseDiameterMm (raw : Option String) : Option ℚ :=
  match jsNumber (trimString (raw.getD "")) with
  | none => none
  | some n => if n ≤ 0 then none else some n

/-- JS `\w` character class. -/
def isWordChar (c : Char) : Bool := c.isAlpha || c.isDigit || c = '_'

/-- Does the pair of characters match the alternation `(18|19|20)`? -/
def yearLead (c0 c1 : Char) : Bool :=
  (c0 = '1' && (c1 = '8' || c1 = '9')) || (c0 = '2' && c1 = '0')

/-- Word boundary before the match (`prev` is the character before it). -/
def prevBoundary (prev : Option Char) : Bool :=
  match prev with
  | none => true
  | some c => !isWordChar c

/-- Word boundary after the match. -/
def nextBoundary : List Char → Bool
  | [] => true
  | c :: _ => !isWordChar c

/-- Digit value of a character (0 when not a digit; only used on digits). -/
def digitVal (c : Char) : ℕ := (charDigit? c).getD 0

/-- First match of the regex `\b(18|19|20)\d{2}\b`, scanning left to right;
`prev` is the character just before the current position. -/
def findYear (prev : Option Char) : List Char → Option ℕ
  | c0 :: c1 :: c2 :: c3 :: rest =>
    if prevBoundary prev && yearLead c0 c1 && (charDigit? c2).isSome &&
        (charDigit? c3).isSome && nextBoundary rest then
      some (1000 * digitVal c0 + 100 * digitVal c1 + 10 * digitVal c2 + digitVal c3)
    else findYear (some c0) (c1 :: c2 :: c3 :: rest)
  | _ => none

/-- The `parseInstallYear` of src/map.js: first 4-digit year-like substring,
`null` when absent or outside `[1800, CURRENT_YEAR]`. -/
def parseInstallYear (raw : Option String) : Option ℤ :=
  match findYear none (raw.getD "").toList with
  | none => none
  | some y => if (y : ℤ) < 1800 ∨ (y : ℤ) > CURRENT_YEAR then none else some (y : ℤ)

/-- The `diameterBin` bucket labels of src/map.js. -/
def diameterBin (diamMm : Option ℚ) : String :=
  match diamMm with
  | none => "Unknown"
  | some d =>
    if d ≤ 150 then "≤150"
    else if d ≤ 250 then "200–250"
    else if d ≤ 300 then "300"
    else if d ≤ 400 then "400"
    else if d ≤ 600 then "500–600"
    else "≥750"

/-- The `ageYears` of src/map.js. -/
def ageYears (installYear : Option ℤ) : Option ℤ :=
  match installYear with
  | none => none
  | some y => let a := CURRENT_YEAR - y; if 0 ≤ a then some a else none

/-- The `ageBin` bucket labels of src/map.js. -/
def ageBin (age : Option ℤ) : String :=
  match age with
  | none => "Unknown"
  | some a =>
    if a < 20 then "<20"
    else if a < 50 then "20–50"
    else if a < 80 then "50–80"
    else "≥80"

/-- The `materialGroup` of src/map.js (`MATERIAL_COLORS` is keyed by
`MATERIAL_ORDER`). -/
def materialGroup (matCode : String) : String :=
  if matCode = "" ∨ matCode = "Unknown" then "Unknown"
  else if MATERIAL_ORDER.contains matCode then matCode
  else "Other"

/-- The `minDiameterForZoomK` LOD thresholds of src/map.js. -/
def minDiameterForZoomK (k : ℚ) : ℚ :=
  if k < 3/2 then 400
  else if k < 4 then 250
  else if k < 8 then 150
  else 0

/-- The per-feature derived attribute cache (`f._derived`) of src/map.js. -/
structure DerivedAttrs where
  diamMm : Option ℚ
  diamBin : String
  matCode : String
  matGroup : String
  ageBin : String
  statusInd : String
  lengthM : Option ℚ

/-- The `pofScoreFromDerived` of src/map.js.  All intermediate values are
integers, so the final `Math.round` is the identity and only the clamp is
kept. -/
def pofScoreFromDerived (d : DerivedAttrs) : ℤ :=
  let status := toUpperString (trimString d.statusInd)
  let score : ℤ :=
    if d.ageBin = "<20" then 1
    else if d.ageBin = "20–50" then 2
    else if d.ageBin = "50–80" then 3
    else if d.ageBin = "≥80" then 4
    else 2
  let matAdj : ℤ :=
    (List.lookup d.matCode
      [("PVC", (-1 : ℤ)), ("PE", -1), ("DI", 0), ("PDI", 0), ("YDI", 0),
       ("ST", 0), ("CI", 1), ("AC", 1), ("ECI", 1), ("PCI", 1)]).getD 0
  let score := score + matAdj
  let score :=
    if strIncludes status "ABAND" || strIncludes status "OUT" || strIncludes status "INACT"
    then score + 1 else score
  clampZ score 1 4

/-- The `consequenceScoreFromDerived` of src/map.js (integer arithmetic, so
`Math.round` is again the identity). -/
def consequenceScoreFromDerived (d : DerivedAttrs) : ℤ :=
  let score : ℤ :=
    match d.diamMm with
    | none => 2
    | some mm => if mm ≤ 150 then 1 else if mm ≤ 250 then 2 else if mm ≤ 400 then 3 else 4
  let score :=
    match d.lengthM with
    | none => score
    | some l => if l ≥ 500 then score + 1 else score
  clampZ score 1 4

/-- The `riskBinFromScores` of src/map.js: null scores default to 2, then the
product is binned at 4/8/12. -/
def riskBinFromScores (pof cof : Option ℤ) : ℤ :=
  let product := pof.getD 2 * cof.getD 2
  if product ≤ 4 then 1
  else if product ≤ 8 then 2
  else if product ≤ 12 then 3
  else 4

/-- The mutable `filterState` of src/map.js; the JS `Set`s are modelled as
insertion-ordered lists. -/
structure FilterState where
  basemapEnabled : Bool
  overlay : String
  diameterBins : List String
  ageBins : List String
  materials : List String

/-- The seven diameter bin labels. -/
def DIAMETER_LABELS : List String :=
  ["≤150", "200–250", "300", "400", "500–600", "≥750", "Unknown"]

/-- The five age bin labels. -/
def AGE_LABELS : List String := ["<20", "20–50", "50–80", "≥80", "Unknown"]

/-- The material filter labels: the palette order plus `Other` and `Unknown`. -/
def MATERIAL_LABELS : List String := MATERIAL_ORDER ++ ["Other", "Unknown"]

/-- The initial `filterState` literal of src/map.js. -/
def defaultFilterState : FilterState :=
  ⟨true, "none", DIAMETER_LABELS, AGE_LABELS, MATERIAL_LABELS⟩

/-- The `.style("display", ...)` callback of `updateSymbology` in src/map.js
(`true` means the feature is shown, `false` means `display: none`). -/
def featureVisible (fs : FilterState) (d : DerivedAttrs) (k : ℚ) : Bool :=
  if ¬ fs.diameterBins.contains d.diamBin then false
  else if ¬ fs.materials.contains d.matGroup then false
  else if ¬ fs.ageBins.contains d.ageBin then false
  else
    let minDiam := minDiameterForZoomK k
    if minDiam ≤ 0 then true
    else
      match d.diamMm with
      | none => false
      | some mm => decide (mm ≥ minDiam)

/-- The `d3.zoomIdentity.translate(x, y).scale(k)` transform state. -/
structure Transform where
  k : ℚ
  x : ℚ
  y : ℚ

/-- The `writeUrlState` of src/map.js, as the key/value pairs it sets.  The
browser `URLSearchParams` percent-encoding round-trips losslessly through
`get`, so parameters are modelled as raw string pairs; in a rational model
`k`, `x`, `y` are always finite, so the `set` branch is always taken. -/
def writeUrlState (t : Transform) (fs : FilterState) : List (String × String) :=
  [("k", jsToFixed t.k 4),
   ("x", jsToFixed t.x 2),
   ("y", jsToFixed t.y 2),
   ("bm", if fs.basemapEnabled then "1" else "0"),
   ("ov", fs.overlay),
   ("dia", jsJoinCommaStr fs.diameterBins),
   ("age", jsJoinCommaStr fs.ageBins),
   ("mat", jsJoinCommaStr fs.materials)]

/-- JS `Number(params.get(key))`: a missing key gives `null`, and `Number(null)`
is NaN (`none`). -/
def jsNumberOfParam (o : Option String) : Option ℚ :=
  match o with
  | none => none
  | some s => jsNumber s

/-- The `parseCsvParam` of src/map.js. -/
def parseCsvParam (params : List (String × String)) (key : String) : Option (List String) :=
  match List.lookup key params with
  | none => none
  | some raw =>
    let trimmed := trimString raw
    if trimmed = "" then some []
    else some (((jsSplitCommaStr trimmed).map trimString).filter (fun s => s.length > 0))

/-- The `readUrlStateIntoFilterState` of src/map.js: fields whose key is
absent keep their current (`t0`, `fs0`) value. -/
def readUrlStateIntoFilterState (params : List (String × String)) (t0 : Transform)
    (fs0 : FilterState) : Transform × FilterState :=
  let kq := jsNumberOfParam (List.lookup "k" params)
  let xq := jsNumberOfParam (List.lookup "x" params)
  let yq := jsNumberOfParam (List.lookup "y" params)
  let t :=
    match kq, xq, yq with
    | some k, some x, some y => if 0 < k then Transform.mk k x y else t0
    | _, _, _ => t0
  let bm :=
    match List.lookup "bm" params with
    | none => fs0.basemapEnabled
    | some s => decide (s = "1" ∨ toLowerString s = "true")
  let ov := toLowerString (trimString ((List.lookup "ov" params).getD ""))
  let overlay := if ov = "risk" ∨ ov = "consequence" ∨ ov = "none" then ov else fs0.overlay
  let dia := (parseCsvParam params "dia").getD fs0.diameterBins
  let age := (parseCsvParam params "age").getD fs0.ageBins
  let mat := (parseCsvParam params "mat").getD fs0.materials
  (t, ⟨bm, overlay, dia, age, mat⟩)

/-- A slippy-map tile descriptor `{z, x, y}` (the string key is derived from
these three fields and is omitted). -/
structure Tile where
  z : ℕ
  x : ℤ
  y : ℤ
deriving DecidableEq

/-- The `TILE_MAX_Z = 19` constant. -/
def TILE_MAX_Z : ℕ := 19

/-- The `lonToTileX` of src/map.js: `floor((lon + 180)/360 · 2^z)`. -/
def lonToTileX (lon : ℚ) (z : ℕ) : ℤ := ⌊(lon + 180) / 360 * 2 ^ z⌋

/-- The `latToTileY` of src/map.js computes `floor(y · 2^z)` where
`y = (1 − log(tan(rad) + 1/cos(rad))/π)/2` is the Web-Mercator fraction of
the latitude, a strictly decreasing (antitone) function of `lat` on
(−90°, 90°).  That transcendental fraction is abstracted as the function
parameter `mercY`; every property proved below holds for every antitone
`mercY`. -/
def latToTileY (mercY : ℚ → ℚ) (lat : ℚ) (z : ℕ) : ℤ := ⌊mercY lat * 2 ^ z⌋

/-- Integer interval `[a, b]` as a list, in increasing order. -/
def intRange (a b : ℤ) : List ℤ :=
  (List.range (b + 1 - a).toNat).map (fun (i : ℕ) => a + (i : ℤ))

/-- The four tile-index corner variables of `updateTiles`. -/
structure TileRect where
  xMin : ℤ
  xMax : ℤ
  yMin : ℤ
  yMax : ℤ

/-- The padded, clamped tile-index corners computed by `updateTiles` from the
inverted viewport corners `p0 = (lon0, lat0)` and `p1 = (lon1, lat1)`
(latitudes consumed only through `mercY`, see `latToTileY`). -/
def tileCorners (mercY : ℚ → ℚ) (p0 p1 : ℚ × ℚ) (z : ℕ) : TileRect :=
  let lonMin := min p0.1 p1.1
  let lonMax := max p0.1 p1.1
  let latMin := min p0.2 p1.2
  let latMax := max p0.2 p1.2
  let n : ℤ := 2 ^ z
  ⟨clampZ (lonToTileX lonMin z - 1) 0 (n - 1),
   clampZ (lonToTileX lonMax z + 1) 0 (n - 1),
   clampZ (latToTileY mercY latMax z - 1) 0 (n - 1),
   clampZ (latToTileY mercY latMin z + 1) 0 (n - 1)⟩

/-- The tile-set computation of `updateTiles` in src/map.js: `none` models the
guard `if (xMax < xMin || yMax < yMin) return;` (skip the frame), otherwise
the full rectangle of `{z,x,y}` descriptors is produced (y outer loop, x
inner, as in the source).  The DOM diffing/positioning that consumes the
list is outside the model. -/
def updateTiles (mercY : ℚ → ℚ) (p0 p1 : ℚ × ℚ) (z : ℕ) : Option (List Tile) :=
  let r := tileCorners mercY p0 p1 z
  if r.xMax < r.xMin ∨ r.yMax < r.yMin then none
  else some ((intRange r.yMin r.yMax).flatMap fun ty =>
    (intRange r.xMin r.xMax).map fun tx => ⟨z, tx, ty⟩)

end MapJs

/-- JS test `typeof diamMm === "number" && diamMm >= x` on a nullable number. -/
def diamAtLeast (dm : Option ℚ) (x : ℚ) : Bool :=
  match dm with
  | some d => decide (d ≥ x)
  | none => false

/-- Common result shape of the scoring engines: the integer PoF, CoF and risk
bin (the float/provenance fields of the JS result object are modelled where a
claim needs them). -/
structure RCResult where
  pof : ℤ
  cof : ℤ
  riskBin : ℤ
deriving DecidableEq

namespace RC1

/-- The `normalizeMaterial` of the `RiskConsequenceModel` with the vintage
override (src/risk_consequence.js, first class): trim + uppercase, empty is
`Unknown`, with the dataset aliases `CON ↦ PCCP` and `COPPER ↦ CU`. -/
def normalizeMaterial (raw : Option String) : String :=
  let s := toUpperString (trimString (raw.getD ""))
  if s = "" then "Unknown"
  else if s = "CON" then "PCCP"
  else if s = "COPPER" then "CU"
  else s

/-- The `ageYears` of the model: `currentYear − installYear` when
nonnegative, else `null`. -/
def ageYears (cy : ℤ) (iy : Option ℤ) : Option ℤ :=
  match iy with
  | none => none
  | some y => let a := cy - y; if 0 ≤ a then some a else none

/-- The `pofDiameterAdjustmentFrom` step: +1.0 at ≤150mm, +0.5 at ≤305mm for
the diameter-sensitive material classes, else 0. -/
def pofDiameterAdjustmentFrom (mc : Option String) (diamMm : Option ℚ) : ℚ :=
  let mat := normalizeMaterial mc
  match diamMm with
  | none => 0
  | some d =>
    let diameterSensitive :=
      mat = "CI" ∨ mat = "AC" ∨ mat = "DI" ∨ mat = "PDI" ∨ mat = "YDI" ∨
      mat = "ST" ∨ mat = "STEEL"
    if ¬ diameterSensitive then 0
    else if d ≤ 150 then 1
    else if d ≤ 305 then 1/2
    else 0

/-- The `pofMaterialBaseFrom` lookup. -/
def pofMaterialBaseFrom (mc : Option String) : ℤ :=
  let mat := normalizeMaterial mc
  if mat = "PVC" ∨ mat = "PE" ∨ mat = "HDPE" then 1
  else if mat = "PCCP" ∨ mat = "PCI" then 1
  else if mat = "DI" ∨ mat = "PDI" ∨ mat = "YDI" then 2
  else if mat = "ST" ∨ mat = "STEEL" then 2
  else if mat = "CU" then 2
  else if mat = "CI" then 3
  else if mat = "AC" then 3
  else 2

/-- The `pofAgeAdjustmentFrom` step: +1 for CI or AC older than 50 years. -/
def pofAgeAdjustmentFrom (mc : Option String) (age : Option ℤ) : ℤ :=
  let mat := normalizeMaterial mc
  match age with
  | none => 0
  | some a =>
    if mat = "CI" ∧ a > 50 then 1
    else if mat = "AC" ∧ a > 50 then 1
    else 0

/-- The `pofVintageOverrideFrom` of the first class: for `PCCP`/`PCI`,
install years 1975–1978 give `4`, other years in 1970–1980 give `3`, else
`null`. -/
def pofVintageOverrideFrom (mc : Option String) (iy : Option ℤ) : Option ℤ :=
  let mat := normalizeMaterial mc
  match iy with
  | none => none
  | some y =>
    if ¬ (mat = "PCCP" ∨ mat = "PCI") then none
    else if 1975 ≤ y ∧ y ≤ 1978 then some 4
    else if 1970 ≤ y ∧ y ≤ 1980 then some 3
    else none

/-- The `scoreFromFloat1to4`: on a (finite) rational, `clamp(round(x), 1, 4)`;
the NaN/non-number branch cannot arise at type `ℚ` but the `Option` shape of
the JS return value is kept. -/
def scoreFromFloat1to4 (x : ℚ) : Option ℤ := some (clampZ (jsRound x) 1 4)

/-- The `pofScoreFrom` of the first class: the vintage override, when
present, replaces the additive base/diameter/age computation entirely. -/
def pofScoreFrom (cy : ℤ) (mc : Option String) (iy : Option ℤ) (dm : Option ℚ) : ℤ :=
  let mat := normalizeMaterial mc
  let age := ageYears cy iy
  match pofVintageOverrideFrom (some mat) iy with
  | some v => clampZ v 1 4
  | none =>
    let base := pofMaterialBaseFrom (some mat)
    let diamAdj := pofDiameterAdjustmentFrom (some mat) dm
    let ageAdj := pofAgeAdjustmentFrom (some mat) age
    (scoreFromFloat1to4 ((base : ℚ) + diamAdj + ageAdj)).getD (clampZ base 1 4)

/-- The `consequenceScoreFrom` of the first class: diameter base (default 2),
then the material caps/floors (PCCP set to 4, large steel floored to 4,
copper capped to 1, AC floored to 2, plastics capped to 3, CI/DI floored
to 2); all values are integers so the final round is the identity. -/
def consequenceScoreFrom (mc : Option String) (dm lm : Option ℚ) : ℤ :=
  let score0 : ℤ :=
    match dm with
    | none => 2
    | some d => if d ≤ 150 then 1 else if d ≤ 250 then 2 else if d ≤ 400 then 3 else 4
  let mat := normalizeMaterial mc
  let s1 := if mat = "PCI" ∨ mat = "PCCP" then 4 else score0
  let s2 :=
    if (mat = "ST" ∨ mat = "STEEL") ∧ diamAtLeast dm 400 = true
    then max s1 4 else s1
  let s3 := if mat = "CU" then min s2 1 else s2
  let s4 := if mat = "AC" then max s3 2 else s3
  let s5 := if mat = "PVC" ∨ mat = "PE" ∨ mat = "HDPE" then min s4 3 else s4
  let s6 := if mat = "CI" ∨ mat = "DI" ∨ mat = "PDI" ∨ mat = "YDI" then max s5 2 else s5
  clampZ s6 1 4

/-- The `riskBinFromScores` shared step function. -/
def riskBinFromScores (pof cof : Option ℤ) : ℤ :=
  let product := pof.getD 2 * cof.getD 2
  if product ≤ 4 then 1
  else if product ≤ 8 then 2
  else if product ≤ 12 then 3
  else 4

/-- The `compute` of the first class (integer outputs; the float/provenance
fields of the JS result are not needed by any claim about this class). -/
def compute (cy : ℤ) (mc : Option String) (dm : Option ℚ) (iy : Option ℤ)
    (lm : Option ℚ) : RCResult :=
  let mat := normalizeMaterial mc
  let age := ageYears cy iy
  let vintage := pofVintageOverrideFrom (some mat) iy
  let pof :=
    match vintage with
    | some v => clampZ v 1 4
    | none =>
      let base := pofMaterialBaseFrom (some mat)
      let diamAdj := pofDiameterAdjustmentFrom (some mat) dm
      let ageAdj := pofAgeAdjustmentFrom (some mat) age
      (scoreFromFloat1to4 ((base : ℚ) + diamAdj + ageAdj)).getD (clampZ base 1 4)
  let cof := consequenceScoreFrom (some mat) dm lm
  ⟨pof, cof, riskBinFromScores (some pof) (some cof)⟩

end RC1

namespace RC3

/-- The `normalizeMaterial` of the `RiskConsequenceModel` with combination
overrides (src/risk_consequence.js, third class): trim + uppercase, empty is
`Unknown` (no aliases in this class). -/
def normalizeMaterial (raw : Option String) : String :=
  let s := toUpperString (trimString (raw.getD ""))
  if s = "" then "Unknown" else s

/-- The `ageYears` of the model. -/
def ageYears (cy : ℤ) (iy : Option ℤ) : Option ℤ :=
  match iy with
  | none => none
  | some y => let a := cy - y; if 0 ≤ a then some a else none

/-- The `pofSizeUpliftFrom` step: +1.0 at ≤150mm, +0.5 at ≤305mm for the
size-sensitive metallic/brittle classes, else 0. -/
def pofSizeUpliftFrom (mc : Option String) (diamMm : Option ℚ) : ℚ :=
  let mat := normalizeMaterial mc
  match diamMm with
  | none => 0
  | some d =>
    let sizeSensitive :=
      mat = "DI" ∨ mat = "PDI" ∨ mat = "YDI" ∨ mat = "ST" ∨ mat = "STEEL" ∨
      mat = "CI" ∨ mat = "AC"
    if ¬ sizeSensitive then 0
    else if d ≤ 150 then 1
    else if d ≤ 305 then 1/2
    else 0

/-- The `baseByMaterial` map lookup of the third class (default 2). -/
def pofMaterialBase (mat : String) : ℤ :=
  (List.lookup mat
    [("PVC", (1 : ℤ)), ("PE", 1), ("HDPE", 1), ("DI", 2), ("PDI", 2), ("YDI", 2),
     ("ST", 2), ("STEEL", 2), ("CI", 3), ("AC", 3), ("PCI", 1), ("PCCP", 1),
     ("CU", 2), ("COPPER", 2)]).getD 2

/-- The status test of `pofScoreFrom`: uppercase trimmed status containing
an abandonment/out-of-service/inactivity marker. -/
def statusFlag (st : Option String) : Bool :=
  let status := toUpperString (trimString (st.getD ""))
  strIncludes status "ABAND" || strIncludes status "OUT" || strIncludes status "INACT"

/-- The `pofScoreFrom` of the third class: material base, size uplift, CI/AC
age uplift, then the PCCP/PCI vintage floors (1972–1978 floors to 4, other
1970–1980 to 3), then the status +1, finally `clamp(round(·), 1, 4)`. -/
def pofScoreFrom (cy : ℤ) (mc : Option String) (iy : Option ℤ) (st : Option String)
    (dm : Option ℚ) : ℤ :=
  let mat := normalizeMaterial mc
  let age := ageYears cy iy
  let score : ℚ := (pofMaterialBase mat : ℚ)
  let score := score + pofSizeUpliftFrom (some mat) dm
  let score :=
    match age with
    | none => score
    | some a =>
      let score := if mat = "CI" ∧ a > 50 then score + 1 else score
      if mat = "AC" ∧ a > 50 then score + 2 else score
  let score :=
    match iy with
    | none => score
    | some y =>
      if mat = "PCI" ∨ mat = "PCCP" then
        if 1972 ≤ y ∧ y ≤ 1978 then max score 4
        else if 1970 ≤ y ∧ y ≤ 1980 then max score 3
        else score
      else score
  let score := if statusFlag st then score + 1 else score
  clampZ (jsRound score) 1 4

/-- The `consequenceScoreFrom` of the third class: diameter base (default 2),
PCCP/PCI floored to 4, large steel (`ST` only) floored to 3, copper capped
to 1, +1 for segments of 500m or more, then `clamp(round(·), 1, 4)`. -/
def consequenceScoreFrom (mc : Option String) (dm lm : Option ℚ) : ℤ :=
  let score : ℤ :=
    match dm with
    | none => 2
    | some d => if d ≤ 150 then 1 else if d ≤ 250 then 2 else if d ≤ 400 then 3 else 4
  let mat := normalizeMaterial mc
  let score := if mat = "PCI" ∨ mat = "PCCP" then max score 4 else score
  let score :=
    if mat = "ST" ∧ diamAtLeast dm 400 = true
    then max score 3 else score
  let score := if mat = "CU" then min score 1 else score
  let score := match lm with
    | none => score
    | some l => if l ≥ 500 then score + 1 else score
  clampZ score 1 4

/-- The `riskBinFromScores` shared step function of the third class. -/
def riskBinFromScores (pof cof : Option ℤ) : ℤ :=
  let product := pof.getD 2 * cof.getD 2
  if product ≤ 4 then 1
  else if product ≤ 8 then 2
  else if product ≤ 12 then 3
  else 4

/-- One value of the combination-override table: `LoF`/`CoF` are `some` when
the CSV cell is a finite number, `none` otherwise (the descriptive
`RiskClass`/`family` fields are not consumed by the scoring path). -/
structure ComboOverride where
  LoF : Option ℚ
  CoF : Option ℚ

/-- The raw key triple passed as `comboKeyParts`. -/
structure ComboParts where
  materialRaw : Option String
  diamRaw : Option String
  yearRaw : Option String

/-- The `_makeComboKey`: uppercased trimmed material, trimmed diameter and
year, joined with `|`. -/
def makeComboKey (m d y : Option String) : String :=
  toUpperString (trimString (m.getD "")) ++ "|" ++ trimString (d.getD "") ++ "|" ++
    trimString (y.getD "")

/-- The `scoreFromFloat01to4` collapse of fractional CSV scores:
`≤2.0→1, ≤3.0→2, ≤4.0→3, else→4`; `none` for non-numbers. -/
def scoreFromFloat01to4 (x : Option ℚ) : Option ℤ :=
  match x with
  | none => none
  | some q => some (if q ≤ 2 then 1 else if q ≤ 3 then 2 else if q ≤ 4 then 3 else 4)

/-- Result of the third class `compute`, including the per-component
provenance strings (`csv` or `doc`). -/
structure Result3 where
  pof : ℤ
  cof : ℤ
  riskBin : ℤ
  pofSource : String
  cofSource : String
deriving DecidableEq

/-- The `compute` of the third class: when an override table and a raw key
triple are supplied and the table has an entry for the key, each component
uses the collapsed CSV value when it is a finite number and the rule-based
value otherwise; with no table, no key parts, or no matching entry, both
components are rule-based.  The table (a JS `Map`) is modelled as an
association list with first-match lookup. -/
def compute (cy : ℤ) (overrides : Option (List (String × ComboOverride)))
    (mc : Option String) (dm : Option ℚ) (iy : Option ℤ) (st : Option String)
    (lm : Option ℚ) (parts : Option ComboParts) : Result3 :=
  let ruleBased : Result3 :=
    let pof := pofScoreFrom cy mc iy st dm
    let cof := consequenceScoreFrom mc dm lm
    ⟨pof, cof, riskBinFromScores (some pof) (some cof), "doc", "doc"⟩
  match overrides, parts with
  | some m, some p =>
    let key := makeComboKey p.materialRaw p.diamRaw p.yearRaw
    match List.lookup key m with
    | some o =>
      let pof0 := scoreFromFloat01to4 o.LoF
      let cof0 := scoreFromFloat01to4 o.CoF
      let pofFinal := pof0.getD (pofScoreFrom cy mc iy st dm)
      let cofFinal := cof0.getD (consequenceScoreFrom mc dm lm)
      ⟨pofFinal, cofFinal, riskBinFromScores (some pofFinal) (some cofFinal),
       if pof0.isSome then "csv" else "doc",
       if cof0.isSome then "csv" else "doc"⟩
    | none => ruleBased
  | _, _ => ruleBased

end RC3

/-! ### Shared arithmetic lemmas -/

lemma clampZ_mem (n : ℤ) : 1 ≤ clampZ n 1 4 ∧ clampZ n 1 4 ≤ 4 := by
  unfold clampZ; omega

lemma clamp_round_eq_four {s : ℚ} (h : 4 ≤ s) : clampZ (jsRound s) 1 4 = 4 := by
  have h4 : (4 : ℤ) ≤ jsRound s := by
    rw [jsRound, Int.le_floor]
    push_cast
    linarith
  unfold clampZ
  omega

lemma clamp_round_ge_three {s : ℚ} (h : 3 ≤ s) : 3 ≤ clampZ (jsRound s) 1 4 := by
  have h3 : (3 : ℤ) ≤ jsRound s := by
    rw [jsRound, Int.le_floor]
    push_cast
    linarith
  unfold clampZ
  omega

/-! ### Spec-side definitions (written from the specification text, to be
compared with the definitions extracted from the source) -/

/-- Spec section 4.1: `riskBin = bin(pof × cof)` with thresholds
`≤4→1, ≤8→2, ≤12→3, else→4`. -/
def riskBinSpec (p c : ℤ) : ℤ :=
  if p * c ≤ 4 then 1 else if p * c ≤ 8 then 2 else if p * c ≤ 12 then 3 else 4

/-- Spec section 4.1, override path: fractional scores collapse via
`≤2.0→1, ≤3.0→2, ≤4.0→3, else→4`. -/
def collapseSpec (x : ℚ) : ℤ :=
  if x ≤ 2 then 1 else if x ≤ 3 then 2 else if x ≤ 4 then 3 else 4

/-- Spec section 4.4: minimum visible diameter 400mm below `k=1.5`, 250mm
below `k=4`, 150mm below `k=8`, 0 (no culling) at `k≥8`. -/
def minDiameterSpec (k : ℚ) : ℚ :=
  if k < 3/2 then 400 else if k < 4 then 250 else if k < 8 then 150 else 0

/-- Spec section 4.4: the zoom-dependent LOD predicate.  At `k ≥ 8` the
minimum is 0 and nothing is culled; below that a feature passes only with a
known diameter at or above the minimum. -/
def lodPassSpec (dm : Option ℚ) (k : ℚ) : Bool :=
  if minDiameterSpec k ≤ 0 then true
  else
    match dm with
    | some d => decide (d ≥ minDiameterSpec k)
    | none => false

/-- Spec section 4.4: per-feature visibility is the AND of the three filter
memberships and the LOD predicate. -/
def visibleSpec (fs : MapJs.FilterState) (d : MapJs.DerivedAttrs) (k : ℚ) : Bool :=
  fs.diameterBins.contains d.diamBin && fs.ageBins.contains d.ageBin &&
    fs.materials.contains d.matGroup && lodPassSpec d.diamMm k

/-! ### C1: risk binning reproduces the spec step function -/

/-- C1: for every pair (pof, cof) with both in {1,2,3,4}, the risk-binning
function of src/map.js and of the scoring engine returns `bin(pof × cof)`
with thresholds `≤4→1, ≤8→2, ≤12→3, else→4`, the step function stated by
the spec. -/
theorem c1_risk_bin_reproduces_spec (p c : ℤ) (hp1 : 1 ≤ p) (hp4 : p ≤ 4)
    (hc1 : 1 ≤ c) (hc4 : c ≤ 4) :
    MapJs.riskBinFromScores (some p) (some c) = riskBinSpec p c ∧
      RC3.riskBinFromScores (some p) (some c) = riskBinSpec p c := by
  constructor <;> simp [MapJs.riskBinFromScores, RC3.riskBinFromScores, riskBinSpec]

/-- Witness for C1 at the concrete pair (3, 2). -/
theorem c1_risk_bin_reproduces_spec_witness :
    MapJs.riskBinFromScores (some 3) (some 2) = riskBinSpec 3 2 ∧
      RC3.riskBinFromScores (some 3) (some 2) = riskBinSpec 3 2 :=
  c1_risk_bin_reproduces_spec 3 2 (by norm_num) (by norm_num) (by norm_num) (by norm_num)

/-! ### C2: all scoring outputs are integers in {1,2,3,4} -/

lemma riskBin_mem_mapjs (p c : Option ℤ) :
    1 ≤ MapJs.riskBinFromScores p c ∧ MapJs.riskBinFromScores p c ≤ 4 := by
  unfold MapJs.riskBinFromScores
  dsimp only
  split_ifs <;> norm_num

lemma riskBin_mem_rc3 (p c : Option ℤ) :
    1 ≤ RC3.riskBinFromScores p c ∧ RC3.riskBinFromScores p c ≤ 4 := by
  unfold RC3.riskBinFromScores
  dsimp only
  split_ifs <;> norm_num

/-- C2: for every input combination of material code, install year, status
and diameter — including null/unparseable values — the scoring engine's
`pof`, `cof` and `riskBin` are integers (the codomain is `ℤ`) in {1,2,3,4}.
Covers the engine of src/risk_consequence.js (`pofScoreFrom`,
`consequenceScoreFrom`, `riskBinFromScores`) and the derived scorers of
src/map.js. -/
theorem c2_scores_always_in_range (cy : ℤ) (mc : Option String) (iy : Option ℤ)
    (st : Option String) (dm lm : Option ℚ) (d : MapJs.DerivedAttrs) (p c : Option ℤ) :
    (1 ≤ RC3.pofScoreFrom cy mc iy st dm ∧ RC3.pofScoreFrom cy mc iy st dm ≤ 4) ∧
    (1 ≤ RC3.consequenceScoreFrom mc dm lm ∧ RC3.consequenceScoreFrom mc dm lm ≤ 4) ∧
    (1 ≤ RC3.riskBinFromScores p c ∧ RC3.riskBinFromScores p c ≤ 4) ∧
    (1 ≤ MapJs.pofScoreFromDerived d ∧ MapJs.pofScoreFromDerived d ≤ 4) ∧
    (1 ≤ MapJs.consequenceScoreFromDerived d ∧ MapJs.consequenceScoreFromDerived d ≤ 4) ∧
    (1 ≤ MapJs.riskBinFromScores p c ∧ MapJs.riskBinFromScores p c ≤ 4) := by
  refine ⟨?_, ?_, riskBin_mem_rc3 p c, ?_, ?_, riskBin_mem_mapjs p c⟩
  · unfold RC3.pofScoreFrom
    exact clampZ_mem _
  · unfold RC3.consequenceScoreFrom
    exact clampZ_mem _
  · unfold MapJs.pofScoreFromDerived
    exact clampZ_mem _
  · unfold MapJs.consequenceScoreFromDerived
    exact clampZ_mem _

/-! ### C10: null scores default to 2 in the risk binning -/

/-- C10: at the risk-binning interface a null pof or cof behaves as the
moderate value 2, `riskBinFromScores(null, null) = 1`, and the result is
still in {1,2,3,4}; this holds for both copies of the function (src/map.js
and the scoring engine). -/
theorem c10_risk_bin_null_defaults (x : ℤ) (h1 : 1 ≤ x) (h4 : x ≤ 4) :
    (MapJs.riskBinFromScores none (some x) = MapJs.riskBinFromScores (some 2) (some x) ∧
     MapJs.riskBinFromScores (some x) none = MapJs.riskBinFromScores (some x) (some 2) ∧
     MapJs.riskBinFromScores none none = 1 ∧
     1 ≤ MapJs.riskBinFromScores none (some x) ∧ MapJs.riskBinFromScores none (some x) ≤ 4 ∧
     1 ≤ MapJs.riskBinFromScores (some x) none ∧ MapJs.riskBinFromScores (some x) none ≤ 4) ∧
    (RC3.riskBinFromScores none (some x) = RC3.riskBinFromScores (some 2) (some x) ∧
     RC3.riskBinFromScores (some x) none = RC3.riskBinFromScores (some x) (some 2) ∧
     RC3.riskBinFromScores none none = 1) := by
  refine ⟨⟨rfl, rfl, by norm_num [MapJs.riskBinFromScores], ?_, ?_, ?_, ?_⟩, rfl, rfl,
    by norm_num [RC3.riskBinFromScores]⟩
  · exact (riskBin_mem_mapjs none (some x)).1
  · exact (riskBin_mem_mapjs none (some x)).2
  · exact (riskBin_mem_mapjs (some x) none).1
  · exact (riskBin_mem_mapjs (some x) none).2

/-! ### C4: the CI / 150mm / 1960 scenario -/

/-- C4: for material `CI`, diameter 150mm, install year 1960 (age 65 under
the fixed reference year 2025), the rule-based scoring engine (the
`RiskConsequenceModel` whose `sanityCheck` documents exactly this case)
returns pof 4, cof 2 and riskBin 2. -/
theorem c4_ci_scenario :
    RC1.compute 2025 (some "CI") (some 150) (some 1960) none = ⟨4, 2, 2⟩ := by
  have hmat : RC1.normalizeMaterial (some "CI") = "CI" := by decide
  have hv : RC1.pofVintageOverrideFrom (some "CI") (some 1960) = none := by decide
  have hbase : RC1.pofMaterialBaseFrom (some "CI") = 3 := by decide
  have hage : RC1.ageYears 2025 (some 1960) = some 65 := by decide
  have hagedj : RC1.pofAgeAdjustmentFrom (some "CI") (some 65) = 1 := by decide
  have hdadj : RC1.pofDiameterAdjustmentFrom (some "CI") (some 150) = 1 := by decide
  have hcof : RC1.consequenceScoreFrom (some "CI") (some 150) none = 2 := by decide
  simp only [RC1.compute, hmat, hv, hbase, hage, hagedj, hdadj, hcof, Option.getD]
  norm_num [RC1.scoreFromFloat1to4, jsRound, clampZ, RC1.riskBinFromScores]

/-! ### C5: the PCCP/PCI vintage override -/

lemma pof_tail_eq_four (E : ℚ) (b : Bool) :
    clampZ (jsRound (if b = true then max E 4 + 1 else max E 4)) 1 4 = 4 := by
  apply clamp_round_eq_four
  have h := le_max_right E (4 : ℚ)
  split_ifs <;> linarith

lemma pof_tail_ge_three (E c : ℚ) (b : Bool) (hc : 3 ≤ c) :
    3 ≤ clampZ (jsRound (if b = true then max E c + 1 else max E c)) 1 4 := by
  apply clamp_round_ge_three
  have h := le_max_right E c
  split_ifs <;> linarith

/-- C5: for every segment normalizing to the PCCP/PCI family with install
year in the defect window, the vintage override forces the PoF floor — in
the engine with the extracted override (`pofVintageOverrideFrom`) the
innermost window (there 1975–1978) yields exactly 4 and it replaces the
base/diameter/age computation outright, while the wider 1970–1980 window
yields at least 3; in the engine with the inline vintage floors the
innermost window (there 1972–1978) floors the score to 4 and the wider
window to at least 3, overriding the additive steps via `max`.  In
particular PCCP, diameter 600, install year 1976 scores pof 4, cof 4,
riskBin 4 in both engines. -/
theorem c5_vintage_override_floors :
    (∀ (cy : ℤ) (mc : Option String) (y : ℤ) (dm : Option ℚ),
      (RC1.normalizeMaterial mc = "PCCP" ∨ RC1.normalizeMaterial mc = "PCI") →
      1975 ≤ y → y ≤ 1978 → RC1.pofScoreFrom cy mc (some y) dm = 4) ∧
    (∀ (cy : ℤ) (mc : Option String) (y : ℤ) (dm : Option ℚ),
      (RC1.normalizeMaterial mc = "PCCP" ∨ RC1.normalizeMaterial mc = "PCI") →
      1970 ≤ y → y ≤ 1980 → 3 ≤ RC1.pofScoreFrom cy mc (some y) dm) ∧
    (∀ (cy : ℤ) (mc : Option String) (y : ℤ) (st : Option String) (dm : Option ℚ),
      (RC3.normalizeMaterial mc = "PCCP" ∨ RC3.normalizeMaterial mc = "PCI") →
      1972 ≤ y → y ≤ 1978 → RC3.pofScoreFrom cy mc (some y) st dm = 4) ∧
    (∀ (cy : ℤ) (mc : Option String) (y : ℤ) (st : Option String) (dm : Option ℚ),
      (RC3.normalizeMaterial mc = "PCCP" ∨ RC3.normalizeMaterial mc = "PCI") →
      1970 ≤ y → y ≤ 1980 → 3 ≤ RC3.pofScoreFrom cy mc (some y) st dm) ∧
    RC1.compute 2025 (some "PCCP") (some 600) (some 1976) none = ⟨4, 4, 4⟩ ∧
    RC3.compute 2025 none (some "PCCP") (some 600) (some 1976) none none none =
      ⟨4, 4, 4, "doc", "doc"⟩ := by
  have hP1 : RC1.normalizeMaterial (some "PCCP") = "PCCP" := by decide
  have hI1 : RC1.normalizeMaterial (some "PCI") = "PCI" := by decide
  refine ⟨?_, ?_, ?_, ?_, ?_, ?_⟩
  · intro cy mc y dm hm h1 h2
    have hv : RC1.pofVintageOverrideFrom (some (RC1.normalizeMaterial mc)) (some y) =
        some 4 := by
      rcases hm with hm | hm <;> rw [hm] <;>
        simp [RC1.pofVintageOverrideFrom, hP1, hI1, h1, h2]
    simp only [RC1.pofScoreFrom]
    rw [hv]
    norm_num [clampZ]
  · intro cy mc y dm hm h1 h2
    by_cases hin : 1975 ≤ y ∧ y ≤ 1978
    · have hv : RC1.pofVintageOverrideFrom (some (RC1.normalizeMaterial mc)) (some y) =
          some 4 := by
        rcases hm with hm | hm <;> rw [hm] <;>
          simp [RC1.pofVintageOverrideFrom, hP1, hI1, hin.1, hin.2]
      simp only [RC1.pofScoreFrom]
      rw [hv]
      norm_num [clampZ]
    · have hv : RC1.pofVintageOverrideFrom (some (RC1.normalizeMaterial mc)) (some y) =
          some 3 := by
        rcases hm with hm | hm <;> rw [hm] <;>
          simp [RC1.pofVintageOverrideFrom, hP1, hI1, hin, h1, h2]
      simp only [RC1.pofScoreFrom]
      rw [hv]
      norm_num [clampZ]
  · intro cy mc y st dm hm h1 h2
    simp only [RC3.pofScoreFrom]
    rcases hm with hm | hm <;> rw [hm] <;>
      cases hage : RC3.ageYears cy (some y) <;>
      simp only [hage, h1, h2, and_self, if_true, String.reduceEq, false_and, if_false,
        or_true, true_or, if_pos, ite_false, ite_true] <;>
      exact pof_tail_eq_four _ _
  · intro cy mc y st dm hm h1 h2
    simp only [RC3.pofScoreFrom]
    rcases hm with hm | hm <;> rw [hm] <;>
      cases hage : RC3.ageYears cy (some y) <;>
      simp only [hage, String.reduceEq, false_and, or_true, true_or, if_true, if_false,
        ite_true, ite_false, and_self] <;>
      by_cases hin : 1972 ≤ y ∧ y ≤ 1978 <;>
      first
        | (rw [if_pos hin]; exact pof_tail_ge_three _ 4 _ (by norm_num))
        | (rw [if_neg hin, if_pos (show 1970 ≤ y ∧ y ≤ 1980 from ⟨h1, h2⟩)]
           exact pof_tail_ge_three _ 3 _ (by norm_num))
  · have hv : RC1.pofVintageOverrideFrom (some "PCCP") (some 1976) = some 4 := by decide
    have hcof : RC1.consequenceScoreFrom (some "PCCP") (some 600) none = 4 := by decide
    simp only [RC1.compute, hP1, hv, hcof]
    decide
  · have hn : RC3.normalizeMaterial (some "PCCP") = "PCCP" := by decide
    have hpof : RC3.pofScoreFrom 2025 (some "PCCP") (some 1976) none (some 600) = 4 := by
      have hag : RC3.ageYears 2025 (some 1976) = some 49 := by decide
      have hup : RC3.pofSizeUpliftFrom (some "PCCP") (some 600) = 0 := by decide
      have hsf : RC3.statusFlag none = false := by decide
      have hb : RC3.pofMaterialBase "PCCP" = 1 := by decide
      simp only [RC3.pofScoreFrom, hn, hag, hup, hsf, hb, String.reduceEq, false_and,
        or_true, true_or, if_true, ite_true, ite_false, and_self, if_false,
        Bool.false_eq_true]
      norm_num [jsRound, clampZ, max_def]
    have hcof : RC3.consequenceScoreFrom (some "PCCP") (some 600) none = 4 := by decide
    simp only [RC3.compute, hpof, hcof]
    decide

/-- Witness for C5: the concrete years 1976 (innermost window) and 1979
(wider window only) with material `PCCP`. -/
theorem c5_vintage_override_floors_witness :
    RC1.pofScoreFrom 2025 (some "PCCP") (some 1976) none = 4 ∧
    3 ≤ RC1.pofScoreFrom 2025 (some "PCCP") (some 1979) none ∧
    RC3.pofScoreFrom 2025 (some "PCCP") (some 1976) none none = 4 ∧
    3 ≤ RC3.pofScoreFrom 2025 (some "PCCP") (some 1979) none none :=
  ⟨c5_vintage_override_floors.1 2025 (some "PCCP") 1976 none
      (Or.inl (by decide)) (by norm_num) (by norm_num),
   c5_vintage_override_floors.2.1 2025 (some "PCCP") 1979 none
      (Or.inl (by decide)) (by norm_num) (by norm_num),
   c5_vintage_override_floors.2.2.1 2025 (some "PCCP") 1976 none none
      (Or.inl (by decide)) (by norm_num) (by norm_num),
   c5_vintage_override_floors.2.2.2.1 2025 (some "PCCP") 1979 none none
      (Or.inl (by decide)) (by norm_num) (by norm_num)⟩

/-! ### C6: combination-override precedence and fallback -/

/-- C6: when the combination-override table has an entry for the feature's
raw key with finite LoF and CoF values, `compute` returns those values
collapsed by the spec thresholds `≤2.0→1, ≤3.0→2, ≤4.0→3, else→4` in place
of the rule-based scores; with no table, or no entry for the key (or no key
parts at all), `compute` returns exactly the rule-based pof and cof. -/
theorem c6_override_precedence_and_fallback :
    (∀ (cy : ℤ) (m : List (String × RC3.ComboOverride)) (p : RC3.ComboParts)
       (o : RC3.ComboOverride) (l c : ℚ) (mc : Option String) (dm : Option ℚ)
       (iy : Option ℤ) (st : Option String) (lm : Option ℚ),
      List.lookup (RC3.makeComboKey p.materialRaw p.diamRaw p.yearRaw) m = some o →
      o.LoF = some l → o.CoF = some c →
      (RC3.compute cy (some m) mc dm iy st lm (some p)).pof = collapseSpec l ∧
        (RC3.compute cy (some m) mc dm iy st lm (some p)).cof = collapseSpec c) ∧
    (∀ (cy : ℤ) (mc : Option String) (dm : Option ℚ) (iy : Option ℤ)
       (st : Option String) (lm : Option ℚ) (parts : Option RC3.ComboParts),
      (RC3.compute cy none mc dm iy st lm parts).pof = RC3.pofScoreFrom cy mc iy st dm ∧
        (RC3.compute cy none mc dm iy st lm parts).cof = RC3.consequenceScoreFrom mc dm lm) ∧
    (∀ (cy : ℤ) (m : List (String × RC3.ComboOverride)) (p : RC3.ComboParts)
       (mc : Option String) (dm : Option ℚ) (iy : Option ℤ) (st : Option String)
       (lm : Option ℚ),
      List.lookup (RC3.makeComboKey p.materialRaw p.diamRaw p.yearRaw) m = none →
      (RC3.compute cy (some m) mc dm iy st lm (some p)).pof = RC3.pofScoreFrom cy mc iy st dm ∧
        (RC3.compute cy (some m) mc dm iy st lm (some p)).cof =
          RC3.consequenceScoreFrom mc dm lm) := by
  refine ⟨?_, ?_, ?_⟩
  · intro cy m p o l c mc dm iy st lm hlook hl hc
    simp [RC3.compute, hlook, hl, hc, RC3.scoreFromFloat01to4, collapseSpec]
  · intro cy mc dm iy st lm parts
    cases parts <;> simp [RC3.compute]
  · intro cy m p mc dm iy st lm hlook
    simp [RC3.compute, hlook]

/-- Witness for C6: a one-entry table keyed `CI|150|1960` with LoF 4.5 and
CoF 2.5, hit through raw parts that need trimming and upcasing. -/
theorem c6_override_precedence_and_fallback_witness :
    List.lookup (RC3.makeComboKey (some "ci") (some " 150") (some "1960 "))
        [("CI|150|1960", RC3.ComboOverride.mk (some (9/2)) (some (5/2)))] =
      some (RC3.ComboOverride.mk (some (9/2)) (some (5/2))) ∧
    (RC3.compute 2025
        (some [("CI|150|1960", RC3.ComboOverride.mk (some (9/2)) (some (5/2)))])
        (some "CI") (some 150) (some 1960) none none
        (some (RC3.ComboParts.mk (some "ci") (some " 150") (some "1960 ")))).pof =
      collapseSpec (9/2) ∧
    (RC3.compute 2025
        (some [("CI|150|1960", RC3.ComboOverride.mk (some (9/2)) (some (5/2)))])
        (some "CI") (some 150) (some 1960) none none
        (some (RC3.ComboParts.mk (some "ci") (some " 150") (some "1960 ")))).cof =
      collapseSpec (5/2) := by
  have hkey : RC3.makeComboKey (some "ci") (some " 150") (some "1960 ") =
      "CI|150|1960" := by decide
  have hlook0 : List.lookup "CI|150|1960"
      [("CI|150|1960", RC3.ComboOverride.mk (some (9/2)) (some (5/2)))] =
      some (RC3.ComboOverride.mk (some (9/2)) (some (5/2))) := rfl
  have hlook : List.lookup (RC3.makeComboKey (some "ci") (some " 150") (some "1960 "))
      [("CI|150|1960", RC3.ComboOverride.mk (some (9/2)) (some (5/2)))] =
      some (RC3.ComboOverride.mk (some (9/2)) (some (5/2))) := by
    rw [hkey]
    exact hlook0
  exact ⟨hlook,
    (c6_override_precedence_and_fallback.1 2025
      [("CI|150|1960", RC3.ComboOverride.mk (some (9/2)) (some (5/2)))]
      (RC3.ComboParts.mk (some "ci") (some " 150") (some "1960 "))
      (RC3.ComboOverride.mk (some (9/2)) (some (5/2))) (9/2) (5/2)
      (some "CI") (some 150) (some 1960) none none hlook rfl rfl).1,
    (c6_override_precedence_and_fallback.1 2025
      [("CI|150|1960", RC3.ComboOverride.mk (some (9/2)) (some (5/2)))]
      (RC3.ComboParts.mk (some "ci") (some " 150") (some "1960 "))
      (RC3.ComboOverride.mk (some (9/2)) (some (5/2))) (9/2) (5/2)
      (some "CI") (some 150) (some 1960) none none hlook rfl rfl).2⟩

/-! ### C8: LOD and filter visibility -/

/-- C8: for every feature and zoom scale, the rendered visibility equals the
spec predicate: AND of the three filter-set memberships and the
zoom-dependent LOD predicate with minimum visible diameter 400mm below
`k = 1.5`, 250mm below 4, 150mm below 8, and no culling from `k = 8`; the
source threshold function agrees with the spec's everywhere. -/
theorem c8_visibility_matches_spec (fs : MapJs.FilterState) (d : MapJs.DerivedAttrs)
    (k : ℚ) :
    MapJs.featureVisible fs d k = visibleSpec fs d k ∧
      MapJs.minDiameterForZoomK k = minDiameterSpec k := by
  constructor
  · cases hdm : d.diamMm <;>
      simp [MapJs.featureVisible, visibleSpec, lodPassSpec, minDiameterSpec,
        MapJs.minDiameterForZoomK, hdm, Bool.and_assoc, Bool.and_comm, Bool.and_left_comm]
  · rfl

/-! ### C9: degradation of unparseable attributes -/

/-- C9 counterexample: a feature whose diameter does not parse bins to
`Unknown`, and the default filter state keeps every `Unknown` bin selected —
yet at zoom `k = 1` (below the LOD cutoff 8) the feature is hidden, so the
claim that it stays visible under any zoom fails. -/
theorem c9_unknown_culled_at_low_zoom :
    MapJs.parseDiameterMm (some "n/a") = none ∧
    MapJs.diameterBin none = "Unknown" ∧
    MapJs.defaultFilterState.diameterBins.contains "Unknown" = true ∧
    MapJs.defaultFilterState.ageBins.contains "Unknown" = true ∧
    MapJs.defaultFilterState.materials.contains "Unknown" = true ∧
    MapJs.featureVisible MapJs.defaultFilterState
      ⟨none, "Unknown", "Unknown", "Unknown", "Unknown", "", none⟩ 1 = false := by
  refine ⟨by decide, by decide, by decide, by decide, by decide, ?_⟩
  norm_num [MapJs.featureVisible, MapJs.defaultFilterState, MapJs.minDiameterForZoomK,
    MapJs.DIAMETER_LABELS, MapJs.AGE_LABELS, MapJs.MATERIAL_LABELS, MapJs.MATERIAL_ORDER]

/-- C9 (amended): unparseable attributes degrade to `null`/`Unknown` without
failing, they bin to the explicit `Unknown` buckets, and such a feature stays
filterable; it is visible with the `Unknown` bins selected at zoom levels
with no LOD minimum (`k ≥ 8`), while at lower zooms a feature with unknown
diameter is LOD-culled exactly like a sub-threshold diameter. -/
theorem c9_unknown_degrades_and_filters :
    MapJs.parseDiameterMm (some "n/a") = none ∧
    MapJs.parseInstallYear (some "unknown") = none ∧
    MapJs.normalizeMaterial (some "") = "Unknown" ∧
    MapJs.diameterBin none = "Unknown" ∧
    MapJs.ageBin none = "Unknown" ∧
    MapJs.materialGroup "Unknown" = "Unknown" ∧
    (∀ (fs : MapJs.FilterState) (k : ℚ) (st : String) (lm : Option ℚ),
      8 ≤ k →
      fs.diameterBins.contains "Unknown" = true →
      fs.materials.contains "Unknown" = true →
      fs.ageBins.contains "Unknown" = true →
      MapJs.featureVisible fs ⟨none, "Unknown", "Unknown", "Unknown", "Unknown", st, lm⟩ k
        = true) ∧
    (∀ (fs : MapJs.FilterState) (k : ℚ) (st : String) (lm : Option ℚ),
      fs.diameterBins.contains "Unknown" = false →
      MapJs.featureVisible fs ⟨none, "Unknown", "Unknown", "Unknown", "Unknown", st, lm⟩ k
        = false) := by
  refine ⟨by decide, by decide, by decide, by decide, by decide, by decide, ?_, ?_⟩
  · intro fs k st lm hk h1 h2 h3
    have hm : MapJs.minDiameterForZoomK k = 0 := by
      unfold MapJs.minDiameterForZoomK
      rw [if_neg (by linarith : ¬ (k < 3/2)), if_neg (by linarith : ¬ (k < 4)),
        if_neg (by linarith : ¬ (k < 8))]
    simp at h1 h2 h3
    simp [MapJs.featureVisible, h1, h2, h3, hm]
  · intro fs k st lm h1
    simp at h1
    simp [MapJs.featureVisible, h1]

/-- Witness for C9's amended statement at `k = 8` with the default filter
state, and at a filter state with the `Unknown` diameter bin deselected. -/
theorem c9_unknown_degrades_and_filters_witness :
    MapJs.featureVisible MapJs.defaultFilterState
      ⟨none, "Unknown", "Unknown", "Unknown", "Unknown", "", none⟩ 8 = true ∧
    MapJs.featureVisible (MapJs.FilterState.mk true "none" [] [] [])
      ⟨none, "Unknown", "Unknown", "Unknown", "Unknown", "", none⟩ 8 = false :=
  ⟨c9_unknown_degrades_and_filters.2.2.2.2.2.2.1 MapJs.defaultFilterState 8 "" none
      (by norm_num) (by decide) (by decide) (by decide),
   c9_unknown_degrades_and_filters.2.2.2.2.2.2.2 (MapJs.FilterState.mk true "none" [] [] [])
      8 "" none (by decide)⟩

/-! ### C7: the visible tile set is a clamped, non-empty rectangle -/

lemma mem_intRange {a b x : ℤ} : x ∈ MapJs.intRange a b ↔ a ≤ x ∧ x ≤ b := by
  unfold MapJs.intRange
  rw [List.mem_map]
  constructor
  · rintro ⟨i, hi, rfl⟩
    rw [List.mem_range] at hi
    omega
  · intro h
    refine ⟨(x - a).toNat, ?_, ?_⟩
    · rw [List.mem_range]
      omega
    · omega

lemma clampZ_le_clampZ {a b lo hi : ℤ} (h : a ≤ b) : clampZ a lo hi ≤ clampZ b lo hi := by
  unfold clampZ
  omega

lemma clampZ_bounds (n lo hi : ℤ) (h : lo ≤ hi) :
    lo ≤ clampZ n lo hi ∧ clampZ n lo hi ≤ hi := by
  unfold clampZ
  omega

lemma lonToTileX_mono {l1 l2 : ℚ} (z : ℕ) (h : l1 ≤ l2) :
    MapJs.lonToTileX l1 z ≤ MapJs.lonToTileX l2 z := by
  unfold MapJs.lonToTileX
  apply Int.floor_le_floor
  have h360 : (0:ℚ) < 360 := by norm_num
  have hp : (0:ℚ) ≤ 2 ^ z := by positivity
  exact mul_le_mul_of_nonneg_right ((div_le_div_iff_of_pos_right h360).mpr (by linarith)) hp

lemma latToTileY_anti {mercY : ℚ → ℚ} (hm : Antitone mercY) {l1 l2 : ℚ} (z : ℕ)
    (h : l1 ≤ l2) : MapJs.latToTileY mercY l2 z ≤ MapJs.latToTileY mercY l1 z := by
  unfold MapJs.latToTileY
  apply Int.floor_le_floor
  exact mul_le_mul_of_nonneg_right (hm h) (by positivity)

/-- C7: for every viewport whose two corner inversions succeed (any two
corner points, with the Mercator latitude fraction antitone in latitude) and
every zoom level `z ≤ TILE_MAX_Z`, `updateTiles` does not skip the frame and
produces a non-empty, contiguous full rectangle of `{z,x,y}` tiles between
the padded, clamped corner indices, every index lying within
`[0, 2^z − 1]`. -/
theorem c7_tile_set_full_clamped_rectangle (mercY : ℚ → ℚ) (hm : Antitone mercY)
    (p0 p1 : ℚ × ℚ) (z : ℕ) (hz : z ≤ MapJs.TILE_MAX_Z) :
    ∃ ts, MapJs.updateTiles mercY p0 p1 z = some ts ∧ ts ≠ [] ∧
      (∀ t ∈ ts, t.z = z ∧ 0 ≤ t.x ∧ t.x ≤ 2 ^ z - 1 ∧ 0 ≤ t.y ∧ t.y ≤ 2 ^ z - 1) ∧
      (∀ tx ty : ℤ,
        MapJs.Tile.mk z tx ty ∈ ts ↔
          (MapJs.tileCorners mercY p0 p1 z).xMin ≤ tx ∧
          tx ≤ (MapJs.tileCorners mercY p0 p1 z).xMax ∧
          (MapJs.tileCorners mercY p0 p1 z).yMin ≤ ty ∧
          ty ≤ (MapJs.tileCorners mercY p0 p1 z).yMax) := by
  have hpow : (0:ℤ) < 2 ^ z := by positivity
  have hr : MapJs.tileCorners mercY p0 p1 z =
      ⟨clampZ (MapJs.lonToTileX (min p0.1 p1.1) z - 1) 0 (2 ^ z - 1),
       clampZ (MapJs.lonToTileX (max p0.1 p1.1) z + 1) 0 (2 ^ z - 1),
       clampZ (MapJs.latToTileY mercY (max p0.2 p1.2) z - 1) 0 (2 ^ z - 1),
       clampZ (MapJs.latToTileY mercY (min p0.2 p1.2) z + 1) 0 (2 ^ z - 1)⟩ := rfl
  have hxc : (MapJs.tileCorners mercY p0 p1 z).xMin ≤
      (MapJs.tileCorners mercY p0 p1 z).xMax := by
    rw [hr]
    apply clampZ_le_clampZ
    have := lonToTileX_mono z (min_le_max (a := p0.1) (b := p1.1))
    omega
  have hyc : (MapJs.tileCorners mercY p0 p1 z).yMin ≤
      (MapJs.tileCorners mercY p0 p1 z).yMax := by
    rw [hr]
    apply clampZ_le_clampZ
    have := latToTileY_anti hm z (min_le_max (a := p0.2) (b := p1.2))
    omega
  refine ⟨(MapJs.intRange (MapJs.tileCorners mercY p0 p1 z).yMin
      (MapJs.tileCorners mercY p0 p1 z).yMax).flatMap fun ty =>
      (MapJs.intRange (MapJs.tileCorners mercY p0 p1 z).xMin
        (MapJs.tileCorners mercY p0 p1 z).xMax).map fun tx => MapJs.Tile.mk z tx ty,
    ?_, ?_, ?_, ?_⟩
  · unfold MapJs.updateTiles
    rw [if_neg (by push_neg; exact ⟨hxc, hyc⟩)]
  · have hmem : MapJs.Tile.mk z (MapJs.tileCorners mercY p0 p1 z).xMin
        (MapJs.tileCorners mercY p0 p1 z).yMin ∈
        ((MapJs.intRange (MapJs.tileCorners mercY p0 p1 z).yMin
            (MapJs.tileCorners mercY p0 p1 z).yMax).flatMap fun ty =>
          (MapJs.intRange (MapJs.tileCorners mercY p0 p1 z).xMin
            (MapJs.tileCorners mercY p0 p1 z).xMax).map fun tx => MapJs.Tile.mk z tx ty) := by
      rw [List.mem_flatMap]
      exact ⟨(MapJs.tileCorners mercY p0 p1 z).yMin, mem_intRange.mpr ⟨le_refl _, hyc⟩,
        List.mem_map.mpr ⟨(MapJs.tileCorners mercY p0 p1 z).xMin,
          mem_intRange.mpr ⟨le_refl _, hxc⟩, rfl⟩⟩
    exact List.ne_nil_of_mem hmem
  · intro t ht
    rw [List.mem_flatMap] at ht
    obtain ⟨ty, hty, htm⟩ := ht
    rw [List.mem_map] at htm
    obtain ⟨tx, htx, rfl⟩ := htm
    rw [mem_intRange] at hty htx
    rw [hr] at hty htx
    have hbx0 := clampZ_bounds (MapJs.lonToTileX (min p0.1 p1.1) z - 1)
      0 (2 ^ z - 1) (by omega)
    have hbx1 := clampZ_bounds (MapJs.lonToTileX (max p0.1 p1.1) z + 1)
      0 (2 ^ z - 1) (by omega)
    have hby0 := clampZ_bounds (MapJs.latToTileY mercY (max p0.2 p1.2) z - 1)
      0 (2 ^ z - 1) (by omega)
    have hby1 := clampZ_bounds (MapJs.latToTileY mercY (min p0.2 p1.2) z + 1)
      0 (2 ^ z - 1) (by omega)
    refine ⟨rfl, by simp only [hr] at *; omega, by simp only [hr] at *; omega,
      by simp only [hr] at *; omega, by simp only [hr] at *; omega⟩
  · intro tx ty
    rw [List.mem_flatMap]
    constructor
    · rintro ⟨ty', hty', htm⟩
      rw [List.mem_map] at htm
      obtain ⟨tx', htx', heq⟩ := htm
      cases heq
      rw [mem_intRange] at hty' htx'
      exact ⟨htx'.1, htx'.2, hty'.1, hty'.2⟩
    · rintro ⟨ha, hb, hc, hd⟩
      exact ⟨ty, mem_intRange.mpr ⟨hc, hd⟩,
        List.mem_map.mpr ⟨tx, mem_intRange.mpr ⟨ha, hb⟩, rfl⟩⟩

/-- Witness for C7: a concrete antitone Mercator fraction and viewport at
zoom 2. -/
theorem c7_tile_set_full_clamped_rectangle_witness :
    Antitone (fun q : ℚ => -q) ∧
    (∃ ts, MapJs.updateTiles (fun q : ℚ => -q) (0, 0) (1, 1) 2 = some ts ∧ ts ≠ [] ∧
      (∀ t ∈ ts, t.z = 2 ∧ 0 ≤ t.x ∧ t.x ≤ 2 ^ 2 - 1 ∧ 0 ≤ t.y ∧ t.y ≤ 2 ^ 2 - 1) ∧
      (∀ tx ty : ℤ,
        MapJs.Tile.mk 2 tx ty ∈ ts ↔
          (MapJs.tileCorners (fun q : ℚ => -q) (0, 0) (1, 1) 2).xMin ≤ tx ∧
          tx ≤ (MapJs.tileCorners (fun q : ℚ => -q) (0, 0) (1, 1) 2).xMax ∧
          (MapJs.tileCorners (fun q : ℚ => -q) (0, 0) (1, 1) 2).yMin ≤ ty ∧
          ty ≤ (MapJs.tileCorners (fun q : ℚ => -q) (0, 0) (1, 1) 2).yMax)) :=
  ⟨fun _ _ h => neg_le_neg h,
   c7_tile_set_full_clamped_rectangle (fun q : ℚ => -q) (fun _ _ h => neg_le_neg h)
     (0, 0) (1, 1) 2 (by norm_num [MapJs.TILE_MAX_Z])⟩

/-! ### C3: URL view-state codec round trip -/


lemma charDigit?_digitChar {d : ℕ} (h : d < 10) : charDigit? (digitChar d) = some d := by
  interval_cases d <;> rfl

lemma digitChar_ne_special {d : ℕ} (h : d < 10) :
    digitChar d ≠ '.' ∧ digitChar d ≠ '-' ∧ digitChar d ≠ '+' := by
  interval_cases d <;> exact ⟨by decide, by decide, by decide⟩

lemma ofDigits_replicate_zero (m : ℕ) : Nat.ofDigits 10 (List.replicate m 0) = 0 := by
  induction m with
  | zero => rfl
  | succ k ih => simp [List.replicate_succ, Nat.ofDigits_cons, ih]

lemma parseFracAux_digits (ds : List ℕ) (hd : ∀ d ∈ ds, d < 10) (rest : List Char)
    (acc len : ℕ) :
    parseFracAux (ds.map digitChar ++ rest) acc len =
      parseFracAux rest (acc * 10 ^ ds.length + Nat.ofDigits 10 ds.reverse)
        (len + ds.length) := by
  induction ds generalizing acc len with
  | nil => simp [Nat.ofDigits_nil]
  | cons d t ih =>
    have hdlt : d < 10 := hd d (List.mem_cons_self d t)
    have ht : ∀ x ∈ t, x < 10 := fun x hx => hd x (List.mem_cons_of_mem d hx)
    rw [List.map_cons, List.cons_append]
    rw [show parseFracAux (digitChar d :: (t.map digitChar ++ rest)) acc len =
        parseFracAux (t.map digitChar ++ rest) (10 * acc + d) (len + 1) by
      conv_lhs => rw [parseFracAux]
      rw [charDigit?_digitChar hdlt]]
    rw [ih ht]
    congr 1
    · rw [List.reverse_cons, Nat.ofDigits_append, List.length_cons, List.length_reverse,
        Nat.ofDigits_singleton]
      ring
    · rw [List.length_cons]
      omega

lemma ofDigits_cons_msb (d : ℕ) (t : List ℕ) :
    Nat.ofDigits 10 ((d :: t).reverse) = Nat.ofDigits 10 t.reverse + d * 10 ^ t.length := by
  rw [List.reverse_cons, Nat.ofDigits_append, Nat.ofDigits_singleton, List.length_reverse]
  ring

lemma parseIntAux_digits (ds : List ℕ) (hd : ∀ d ∈ ds, d < 10) (rest : List Char)
    (acc : ℕ) (seen : Bool) (hne : ds ≠ []) :
    parseIntAux (ds.map digitChar ++ rest) acc seen =
      parseIntAux rest (acc * 10 ^ ds.length + Nat.ofDigits 10 ds.reverse) true := by
  induction ds generalizing acc seen with
  | nil => exact absurd rfl hne
  | cons d t ih =>
    have hdlt : d < 10 := hd d (List.mem_cons_self d t)
    have ht : ∀ x ∈ t, x < 10 := fun x hx => hd x (List.mem_cons_of_mem d hx)
    rw [List.map_cons, List.cons_append]
    rw [show parseIntAux (digitChar d :: (t.map digitChar ++ rest)) acc seen =
        parseIntAux (t.map digitChar ++ rest) (10 * acc + d) true by
      conv_lhs => rw [parseIntAux]
      rw [if_neg (digitChar_ne_special hdlt).1, charDigit?_digitChar hdlt]]
    cases t with
    | nil =>
      simp only [List.map_nil, List.nil_append, List.length_singleton, pow_one,
        List.reverse_cons, List.reverse_nil, Nat.ofDigits_singleton, List.nil_append,
        Nat.ofDigits_append, Nat.ofDigits_nil, List.length_nil, pow_zero]
      congr 1
      ring
    | cons e r =>
      rw [ih ht _ true (by simp)]
      congr 1
      simp only [ofDigits_cons_msb, List.length_cons]
      ring

lemma digits_length_le {n d : ℕ} (h : n < 10 ^ d) : (Nat.digits 10 n).length ≤ d := by
  by_cases hn : n = 0
  · subst hn
    simp
  · rw [Nat.digits_len 10 n (by norm_num) hn]
    have := Nat.log_lt_of_lt_pow hn h
    omega

lemma renderNat_spec (n : ℕ) :
    ∃ ds : List ℕ, ds ≠ [] ∧ (∀ d ∈ ds, d < 10) ∧ renderNat n = ds.map digitChar ∧
      Nat.ofDigits 10 ds.reverse = n := by
  by_cases h : n = 0
  · subst h
    exact ⟨[0], by simp, by simp, rfl, rfl⟩
  · refine ⟨(Nat.digits 10 n).reverse, ?_, ?_, ?_, ?_⟩
    · simp [Nat.digits_ne_nil_iff_ne_zero.mpr h]
    · intro d hd
      exact Nat.digits_lt_base (by norm_num) (List.mem_reverse.mp hd)
    · rw [renderNat, if_neg h]
      rfl
    · rw [List.reverse_reverse, Nat.ofDigits_digits]

lemma renderNatPad_spec (d n : ℕ) (h : n < 10 ^ d) :
    ∃ ds : List ℕ, ds.length = d ∧ (∀ x ∈ ds, x < 10) ∧ renderNatPad d n = ds.map digitChar ∧
      Nat.ofDigits 10 ds.reverse = n := by
  have hL : (Nat.digits 10 n).length ≤ d := digits_length_le h
  refine ⟨List.replicate (d - (Nat.digits 10 n).length) 0 ++ (Nat.digits 10 n).reverse,
    ?_, ?_, ?_, ?_⟩
  · simp
    omega
  · intro x hx
    rcases List.mem_append.mp hx with hx | hx
    · have := List.eq_of_mem_replicate hx
      omega
    · exact Nat.digits_lt_base (by norm_num) (List.mem_reverse.mp hx)
  · rw [renderNatPad]
    simp only [List.map_append, List.map_replicate, List.length_map, natDigitsMSB,
      List.length_reverse]
    rfl
  · rw [List.reverse_append, List.reverse_replicate, List.reverse_reverse,
      Nat.ofDigits_append, Nat.ofDigits_digits, ofDigits_replicate_zero]
    simp

lemma parseIntAux_dot (fs : List ℕ) (hflt : ∀ x ∈ fs, x < 10) (acc : ℕ) :
    parseIntAux ('.' :: fs.map digitChar) acc true =
      some ((acc : ℚ) + ((Nat.ofDigits 10 fs.reverse : ℕ) : ℚ) / 10 ^ fs.length) := by
  conv_lhs => rw [parseIntAux]
  rw [if_pos rfl]
  have hfrac := parseFracAux_digits fs hflt [] 0 0
  rw [List.append_nil] at hfrac
  rw [hfrac]
  simp [parseFracAux]

lemma parseIntAux_toFixedNN (q : ℚ) (d : ℕ) (hd : d ≠ 0) :
    parseIntAux (jsToFixedNN q d).toList 0 false =
      some (((⌊q * 10 ^ d + 1/2⌋).toNat : ℚ) / 10 ^ d) := by
  have hNN : (jsToFixedNN q d).toList =
      renderNat ((⌊q * 10 ^ d + 1/2⌋).toNat / 10 ^ d) ++
        '.' :: renderNatPad d ((⌊q * 10 ^ d + 1/2⌋).toNat % 10 ^ d) := by
    rw [jsToFixedNN, if_neg hd]
    rfl
  obtain ⟨ds, hne, hlt, hrender, hval⟩ := renderNat_spec ((⌊q * 10 ^ d + 1/2⌋).toNat / 10 ^ d)
  obtain ⟨fs, hflen, hflt, hfrender, hfval⟩ :=
    renderNatPad_spec d ((⌊q * 10 ^ d + 1/2⌋).toNat % 10 ^ d)
      (Nat.mod_lt _ (Nat.pos_pow_of_pos d (by norm_num)))
  rw [hNN, hrender, hfrender]
  rw [parseIntAux_digits ds hlt _ 0 false hne]
  rw [hval, parseIntAux_dot fs hflt, hfval, hflen]
  have hsplit : ((⌊q * 10 ^ d + 1/2⌋).toNat : ℚ) =
      10 ^ d * ((⌊q * 10 ^ d + 1/2⌋).toNat / 10 ^ d : ℕ) +
        ((⌊q * 10 ^ d + 1/2⌋).toNat % 10 ^ d : ℕ) := by
    exact_mod_cast (Nat.div_add_mod (⌊q * 10 ^ d + 1/2⌋).toNat (10 ^ d)).symm
  rw [show (0 : ℕ) * 10 ^ ds.length + (⌊q * 10 ^ d + 1/2⌋).toNat / 10 ^ d =
      (⌊q * 10 ^ d + 1/2⌋).toNat / 10 ^ d by ring]
  congr 1
  rw [hsplit]
  have hp : ((10 : ℚ) ^ d) ≠ 0 := by positivity
  field_simp
  ring

lemma toFixedNN_head (q : ℚ) (d : ℕ) (hd : d ≠ 0) :
    ∃ (d0 : ℕ) (rest : List Char), d0 < 10 ∧
      (jsToFixedNN q d).toList = digitChar d0 :: rest := by
  have hNN : (jsToFixedNN q d).toList =
      renderNat ((⌊q * 10 ^ d + 1/2⌋).toNat / 10 ^ d) ++
        '.' :: renderNatPad d ((⌊q * 10 ^ d + 1/2⌋).toNat % 10 ^ d) := by
    rw [jsToFixedNN, if_neg hd]
    rfl
  obtain ⟨ds, hne, hlt, hrender, _⟩ := renderNat_spec ((⌊q * 10 ^ d + 1/2⌋).toNat / 10 ^ d)
  cases ds with
  | nil => exact absurd rfl hne
  | cons d0 t =>
    refine ⟨d0, t.map digitChar ++
      '.' :: renderNatPad d ((⌊q * 10 ^ d + 1/2⌋).toNat % 10 ^ d),
      hlt d0 (List.mem_cons_self d0 t), ?_⟩
    rw [hNN, hrender]
    rfl

lemma jsNumber_eq_parseIntAux (s : String) (d0 : ℕ) (h : d0 < 10) (rest : List Char)
    (hs : s.toList = digitChar d0 :: rest) :
    jsNumber s = parseIntAux s.toList 0 false := by
  rw [jsNumber, hs]
  dsimp only
  rw [if_neg (digitChar_ne_special h).2.1, if_neg (digitChar_ne_special h).2.2]

lemma jsNumber_jsToFixed (q : ℚ) (d : ℕ) (hd : d ≠ 0) :
    jsNumber (jsToFixed q d) = some (fixedRound q d) := by
  unfold jsToFixed fixedRound
  by_cases hq : q < 0
  · rw [if_pos hq, if_pos hq]
    have htl : ("-" ++ jsToFixedNN (-q) d).toList = '-' :: (jsToFixedNN (-q) d).toList := rfl
    rw [jsNumber, htl]
    dsimp only
    rw [if_pos rfl]
    rw [parseIntAux_toFixedNN (-q) d hd]
    rfl
  · rw [if_neg hq, if_neg hq]
    obtain ⟨d0, rest, hd0, hs⟩ := toFixedNN_head q d hd
    rw [jsNumber_eq_parseIntAux _ d0 hd0 rest hs]
    exact parseIntAux_toFixedNN q d hd

lemma fixedRound_pos (q : ℚ) (d : ℕ) (h : 1 ≤ q) : 0 < fixedRound q d := by
  unfold fixedRound
  rw [if_neg (by linarith : ¬ q < 0)]
  apply div_pos
  · have hp : (1:ℚ) ≤ 10 ^ d := one_le_pow₀ (by norm_num)
    have hfl : (1:ℤ) ≤ ⌊q * 10 ^ d + 1/2⌋ := by
      rw [Int.le_floor]
      push_cast
      nlinarith
    have : 1 ≤ (⌊q * 10 ^ d + 1/2⌋).toNat := by omega
    exact_mod_cast Nat.lt_of_lt_of_le Nat.zero_lt_one this
  · positivity

abbrev CleanLabel (s : String) : Prop :=
  s.toList ≠ [] ∧ ∀ c ∈ s.toList, c ≠ ',' ∧ isWsChar c = false

lemma dropWhile_all_false (p : Char → Bool) (l : List Char) (h : ∀ c ∈ l, p c = false) :
    l.dropWhile p = l := by
  cases l with
  | nil => rfl
  | cons c t => simp [List.dropWhile, h c (List.mem_cons_self c t)]

lemma trimChars_clean (cs : List Char) (h : ∀ c ∈ cs, isWsChar c = false) :
    trimChars cs = cs := by
  unfold trimChars
  rw [dropWhile_all_false _ _ h]
  rw [dropWhile_all_false _ _ (fun c hc => h c (List.mem_reverse.mp hc))]
  exact List.reverse_reverse cs

lemma mk_toList (s : String) : String.mk s.toList = s := rfl

lemma trimString_clean (s : String) (h : ∀ c ∈ s.toList, isWsChar c = false) :
    trimString s = s := by
  unfold trimString
  rw [trimChars_clean _ h, mk_toList]

lemma splitOnComma_no_comma (p : List Char) (h : ∀ c ∈ p, c ≠ ',') :
    splitOnComma p = [p] := by
  induction p with
  | nil => rfl
  | cons c t ih =>
    rw [splitOnComma]
    rw [if_neg (h c (List.mem_cons_self c t))]
    rw [ih (fun x hx => h x (List.mem_cons_of_mem c hx))]

lemma splitOnComma_append (p rest : List Char) (h : ∀ c ∈ p, c ≠ ',') :
    splitOnComma (p ++ ',' :: rest) = p :: splitOnComma rest := by
  induction p with
  | nil =>
    rw [List.nil_append, splitOnComma, if_pos rfl]
  | cons c t ih =>
    rw [List.cons_append, splitOnComma]
    rw [if_neg (h c (List.mem_cons_self c t))]
    rw [ih (fun x hx => h x (List.mem_cons_of_mem c hx))]

lemma splitOnComma_joinComma (parts : List (List Char)) (hne : parts ≠ [])
    (h : ∀ p ∈ parts, ∀ c ∈ p, c ≠ ',') :
    splitOnComma (joinComma parts) = parts := by
  induction parts with
  | nil => exact absurd rfl hne
  | cons p r ih =>
    cases r with
    | nil =>
      rw [joinComma]
      exact splitOnComma_no_comma p (h p (List.mem_cons_self p []))
    | cons q r2 =>
      rw [show joinComma (p :: q :: r2) = p ++ ',' :: joinComma (q :: r2) from rfl]
      rw [splitOnComma_append p _ (h p (List.mem_cons_self p (q :: r2)))]
      rw [ih (by simp) (fun x hx => h x (List.mem_cons_of_mem p hx))]

lemma joinComma_chars (parts : List (List Char)) (c : Char) (hc : c ∈ joinComma parts) :
    (∃ p ∈ parts, c ∈ p) ∨ c = ',' := by
  induction parts with
  | nil => simp [joinComma] at hc
  | cons p r ih =>
    cases r with
    | nil =>
      rw [joinComma] at hc
      exact Or.inl ⟨p, List.mem_cons_self p [], hc⟩
    | cons q r2 =>
      rw [show joinComma (p :: q :: r2) = p ++ ',' :: joinComma (q :: r2) from rfl] at hc
      rcases List.mem_append.mp hc with hc | hc
      · exact Or.inl ⟨p, List.mem_cons_self p (q :: r2), hc⟩
      · rcases List.mem_cons.mp hc with hc | hc
        · exact Or.inr hc
        · rcases ih hc with ⟨p2, hp2, hcp⟩ | hcomma
          · exact Or.inl ⟨p2, List.mem_cons_of_mem p hp2, hcp⟩
          · exact Or.inr hcomma

lemma joinComma_ne_nil (p : List Char) (r : List (List Char)) (hp : p ≠ []) :
    joinComma (p :: r) ≠ [] := by
  cases r with
  | nil => simpa [joinComma] using hp
  | cons q r2 =>
    rw [show joinComma (p :: q :: r2) = p ++ ',' :: joinComma (q :: r2) from rfl]
    simp [hp]

lemma parseCsvParam_join (params : List (String × String)) (key : String)
    (ls : List String) (hlk : List.lookup key params = some (jsJoinCommaStr ls))
    (h : ∀ l ∈ ls, CleanLabel l) :
    MapJs.parseCsvParam params key = some ls := by
  unfold MapJs.parseCsvParam
  rw [hlk]
  dsimp only
  cases ls with
  | nil =>
    rw [show jsJoinCommaStr [] = "" from rfl]
    rw [show trimString "" = "" from rfl]
    rw [if_pos rfl]
  | cons l0 r =>
    have hckind : ∀ c ∈ (jsJoinCommaStr (l0 :: r)).toList, isWsChar c = false := by
      intro c hc
      rcases joinComma_chars _ c hc with ⟨p, hp, hcp⟩ | rfl
      · rcases List.mem_map.mp hp with ⟨l, hl, rfl⟩
        exact ((h l hl).2 c hcp).2
      · decide
    have htrim : trimString (jsJoinCommaStr (l0 :: r)) = jsJoinCommaStr (l0 :: r) :=
      trimString_clean _ hckind
    rw [htrim]
    have hne0 : (jsJoinCommaStr (l0 :: r)).toList ≠ [] := by
      show joinComma ((l0 :: r).map String.toList) ≠ []
      rw [List.map_cons]
      exact joinComma_ne_nil _ _ (h l0 (List.mem_cons_self l0 r)).1
    rw [if_neg (fun heq => hne0 (by rw [heq]; rfl))]
    congr 1
    have hsplit : jsSplitCommaStr (jsJoinCommaStr (l0 :: r)) = l0 :: r := by
      unfold jsSplitCommaStr jsJoinCommaStr
      rw [show (String.mk (joinComma ((l0 :: r).map String.toList))).toList =
          joinComma ((l0 :: r).map String.toList) from rfl]
      rw [splitOnComma_joinComma _ (by simp)
        (fun p hp c hc => by
          rcases List.mem_map.mp hp with ⟨l, hl, rfl⟩
          exact ((h l hl).2 c hc).1)]
      rw [List.map_map]
      exact List.map_congr_left (fun l _ => mk_toList l) |>.trans (List.map_id _)
    rw [hsplit]
    have hmapid : (l0 :: r).map trimString = l0 :: r :=
      (List.map_congr_left (fun l hl =>
        trimString_clean l (fun c hc => ((h l hl).2 c hc).2))).trans (List.map_id _)
    rw [hmapid]
    apply List.filter_eq_self.mpr
    intro a ha
    have hlen : a.toList ≠ [] := (h a ha).1
    have : 0 < a.length := List.length_pos.mpr hlen
    simpa using this

lemma diameterLabelsClean : ∀ l ∈ MapJs.DIAMETER_LABELS, CleanLabel l := by decide

lemma ageLabelsClean : ∀ l ∈ MapJs.AGE_LABELS, CleanLabel l := by decide

lemma materialLabelsClean : ∀ l ∈ MapJs.MATERIAL_LABELS, CleanLabel l := by decide

/-- C3: decoding the URL parameters produced by encoding a reachable view
state (scale in [1, 20], any translations, style mode one of the three
modes, filter sets drawn from the fixed bin labels) reproduces the view
state exactly on the basemap flag, style mode and the three filter lists,
and reproduces the transform up to the stated rounding: scale to 4 decimal
places, translations to 2. -/
theorem c3_url_state_roundtrip (t : MapJs.Transform) (fs : MapJs.FilterState) (t0 : MapJs.Transform)
    (fs0 : MapJs.FilterState) (hk1 : 1 ≤ t.k) (hk20 : t.k ≤ 20)
    (hov : fs.overlay = "none" ∨ fs.overlay = "risk" ∨ fs.overlay = "consequence")
    (hdia : ∀ l ∈ fs.diameterBins, l ∈ MapJs.DIAMETER_LABELS)
    (hage : ∀ l ∈ fs.ageBins, l ∈ MapJs.AGE_LABELS)
    (hmat : ∀ l ∈ fs.materials, l ∈ MapJs.MATERIAL_LABELS) :
    MapJs.readUrlStateIntoFilterState (MapJs.writeUrlState t fs) t0 fs0 =
      (MapJs.Transform.mk (fixedRound t.k 4) (fixedRound t.x 2) (fixedRound t.y 2), fs) := by
  obtain ⟨bm, ov, dia, age, mat⟩ := fs
  simp only at hov hdia hage hmat
  have hdia' : ∀ l ∈ dia, CleanLabel l := fun l hl => diameterLabelsClean l (hdia l hl)
  have hage' : ∀ l ∈ age, CleanLabel l := fun l hl => ageLabelsClean l (hage l hl)
  have hmat' : ∀ l ∈ mat, CleanLabel l := fun l hl => materialLabelsClean l (hmat l hl)
  have hk : List.lookup "k" (MapJs.writeUrlState t ⟨bm, ov, dia, age, mat⟩) =
      some (jsToFixed t.k 4) := rfl
  have hx : List.lookup "x" (MapJs.writeUrlState t ⟨bm, ov, dia, age, mat⟩) =
      some (jsToFixed t.x 2) := rfl
  have hy : List.lookup "y" (MapJs.writeUrlState t ⟨bm, ov, dia, age, mat⟩) =
      some (jsToFixed t.y 2) := rfl
  have hbm : List.lookup "bm" (MapJs.writeUrlState t ⟨bm, ov, dia, age, mat⟩) =
      some (if bm then "1" else "0") := rfl
  have hovl : List.lookup "ov" (MapJs.writeUrlState t ⟨bm, ov, dia, age, mat⟩) =
      some ov := rfl
  have hdial : List.lookup "dia" (MapJs.writeUrlState t ⟨bm, ov, dia, age, mat⟩) =
      some (jsJoinCommaStr dia) := rfl
  have hagel : List.lookup "age" (MapJs.writeUrlState t ⟨bm, ov, dia, age, mat⟩) =
      some (jsJoinCommaStr age) := rfl
  have hmatl : List.lookup "mat" (MapJs.writeUrlState t ⟨bm, ov, dia, age, mat⟩) =
      some (jsJoinCommaStr mat) := rfl
  unfold MapJs.readUrlStateIntoFilterState
  rw [hk, hx, hy, hbm, hovl,
    parseCsvParam_join _ "dia" dia hdial hdia',
    parseCsvParam_join _ "age" age hagel hage',
    parseCsvParam_join _ "mat" mat hmatl hmat']
  simp only [MapJs.jsNumberOfParam]
  rw [jsNumber_jsToFixed t.k 4 (by norm_num), jsNumber_jsToFixed t.x 2 (by norm_num),
    jsNumber_jsToFixed t.y 2 (by norm_num)]
  dsimp only
  rw [if_pos (fixedRound_pos t.k 4 hk1)]
  rcases hov with rfl | rfl | rfl <;> cases bm <;>
    simp [show toLowerString (trimString "none") = "none" from rfl,
      show toLowerString (trimString "risk") = "risk" from rfl,
      show toLowerString (trimString "consequence") = "consequence" from rfl,
      show toLowerString "0" = "0" from rfl, show toLowerString "1" = "1" from rfl]

/-- Witness for C3: the default filter state with transform
(k, x, y) = (3/2, −10, 5). -/
theorem c3_url_state_roundtrip_witness :
    (1 : ℚ) ≤ 3/2 ∧ (3/2 : ℚ) ≤ 20 ∧
    MapJs.readUrlStateIntoFilterState
        (MapJs.writeUrlState (MapJs.Transform.mk (3/2) (-10) 5) MapJs.defaultFilterState)
        (MapJs.Transform.mk 1 0 0) MapJs.defaultFilterState =
      (MapJs.Transform.mk (fixedRound (3/2) 4) (fixedRound (-10) 2) (fixedRound 5 2),
        MapJs.defaultFilterState) :=
  ⟨by norm_num, by norm_num,
    c3_url_state_roundtrip (MapJs.Transform.mk (3/2) (-10) 5) MapJs.defaultFilterState
      (MapJs.Transform.mk 1 0 0) MapJs.defaultFilterState (by norm_num) (by norm_num)
      (Or.inl rfl) (fun l hl => hl) (fun l hl => hl) (fun l hl => hl)⟩

/-- Witness for C10 at x = 3. -/
theorem c10_risk_bin_null_defaults_witness :
    (MapJs.riskBinFromScores none (some 3) = MapJs.riskBinFromScores (some 2) (some 3) ∧
     MapJs.riskBinFromScores (some 3) none = MapJs.riskBinFromScores (some 3) (some 2) ∧
     MapJs.riskBinFromScores none none = 1 ∧
     1 ≤ MapJs.riskBinFromScores none (some 3) ∧ MapJs.riskBinFromScores none (some 3) ≤ 4 ∧
     1 ≤ MapJs.riskBinFromScores (some 3) none ∧ MapJs.riskBinFromScores (some 3) none ≤ 4) ∧
    (RC3.riskBinFromScores none (some 3) = RC3.riskBinFromScores (some 2) (some 3) ∧
     RC3.riskBinFromScores (some 3) none = RC3.riskBinFromScores (some 3) (some 2) ∧
     RC3.riskBinFromScores none none = 1) :=
  c10_risk_bin_null_defaults 3 (by norm_num) (by norm_num)

end CalgaryWater
